import Mathlib

/-!
Verification of the knowledge-graph memory store (`src/memory/index.ts`).

The store keeps entities (name, type, observation strings) and directed
typed relations, persisted as a flat file of tagged records.  Every
operation loads the whole persisted graph, applies one mutation or query
in memory, and (for mutations) writes the whole graph back.

The embedding below is a direct translation of the TypeScript class
`KnowledgeGraphManager`:
  * persisted lines that parse to tagged objects are modelled as
    `StoredRecord` values; `saveGraph` / the `loadGraph` reduce become
    `encodeGraph` / `decodeRecords`;
  * the backing file is modelled by `StoreState` (absent, present with
    records, or failing to read), and each public method becomes a
    function `StoreState → StoreState × Except OpError result`, where the
    first component is the persisted state after the call;
  * JavaScript `Array.filter` / `some` / `includes` / `find`-and-mutate
    become `List.filter` / `List.any` / `List.contains` / `updateFirst`;
  * a thrown exception becomes `Except.error`, and — exactly as in the
    source, where `throw` skips the `saveGraph` call — an error leaves the
    `StoreState` component unchanged.
-/

namespace Memory

/-- `interface Entity` (index.ts lines 24–28). -/
structure Entity where
  name : String
  entityType : String
  observations : List String
deriving DecidableEq

/-- `interface Relation` (index.ts lines 30–34). -/
structure Relation where
  «from» : String
  «to» : String
  relationType : String
deriving DecidableEq

/-- `interface KnowledgeGraph` (index.ts lines 36–39). -/
structure KnowledgeGraph where
  entities : List Entity
  relations : List Relation
deriving DecidableEq

/-- One parsed line of the persisted store: a JSON object whose `type`
discriminant is `"entity"`, `"relation"`, or anything else (`other`),
which `loadGraph`'s reduce silently drops. -/
inductive StoredRecord where
  | entity (e : Entity)
  | relation (r : Relation)
  | other
deriving DecidableEq

/-- The backing file: missing (ENOENT), readable with the given parsed
records, or failing to read for any other reason. -/
inductive StoreState where
  | absent
  | present (records : List StoredRecord)
  | failed
deriving DecidableEq

/-- Error kinds surfaced by the operations: the `Entity with name …
not found` exception of `addObservations`, and a read failure other than
ENOENT rethrown by `loadGraph` (lines 59–60). -/
inductive OpError where
  | notFound (name : String)
  | ioError
deriving DecidableEq

/-- The reducer in `loadGraph` (lines 48–53): route one record by its
discriminant, appending to the matching collection; drop the rest. -/
def decodeStep (graph : KnowledgeGraph) (item : StoredRecord) : KnowledgeGraph :=
  match item with
  | .entity e => { graph with entities := graph.entities ++ [e] }
  | .relation r => { graph with relations := graph.relations ++ [r] }
  | .other => graph

/-- `loadGraph`'s successful branch (lines 46–53): fold the parsed lines
into a graph starting from `{ entities: [], relations: [] }`. -/
def decodeRecords (records : List StoredRecord) : KnowledgeGraph :=
  records.foldl decodeStep { entities := [], relations := [] }

/-- `loadGraph` (lines 43–62): read the store; ENOENT yields the empty
graph, any other read failure is rethrown. -/
def loadGraph : StoreState → Except OpError KnowledgeGraph
  | .absent => .ok { entities := [], relations := [] }
  | .present records => .ok (decodeRecords records)
  | .failed => .error .ioError

/-- `saveGraph` (lines 64–77): serialize every entity record followed by
every relation record. -/
def encodeGraph (g : KnowledgeGraph) : List StoredRecord :=
  g.entities.map StoredRecord.entity ++ g.relations.map StoredRecord.relation

/-- The store state after `saveGraph(g)` succeeds. -/
def saveGraph (g : KnowledgeGraph) : StoreState :=
  .present (encodeGraph g)

/-- `createEntities` (lines 79–87), in-memory part: keep the candidates
whose name no loaded entity already has, append them; return the updated
graph and the appended subsequence. -/
def createEntities (g : KnowledgeGraph) (entities : List Entity) :
    KnowledgeGraph × List Entity :=
  let newEntities := entities.filter fun e =>
    ! g.entities.any fun existingEntity => existingEntity.name == e.name
  ({ g with entities := g.entities ++ newEntities }, newEntities)

/-- `createEntities` including load and save. -/
def createEntitiesOp (σ : StoreState) (entities : List Entity) :
    StoreState × Except OpError (List Entity) :=
  match loadGraph σ with
  | .error err => (σ, .error err)
  | .ok g =>
    let res := createEntities g entities
    (saveGraph res.1, .ok res.2)

/-- `createRelations` (lines 89–101), in-memory part: keep the candidates
whose `(from, to, relationType)` triple no loaded relation already has,
append them. -/
def createRelations (g : KnowledgeGraph) (relations : List Relation) :
    KnowledgeGraph × List Relation :=
  let newRelations := relations.filter fun r =>
    ! g.relations.any fun existingRelation =>
      existingRelation.«from» == r.«from» &&
      existingRelation.«to» == r.«to» &&
      existingRelation.relationType == r.relationType
  ({ g with relations := g.relations ++ newRelations }, newRelations)

/-- `createRelations` including load and save. -/
def createRelationsOp (σ : StoreState) (relations : List Relation) :
    StoreState × Except OpError (List Relation) :=
  match loadGraph σ with
  | .error err => (σ, .error err)
  | .ok g =>
    let res := createRelations g relations
    (saveGraph res.1, .ok res.2)

/-- The identity key of a relation: its `(from, to, relationType)` triple
(the `existingRelation.from === r.from && ...` comparison of
`createRelations`, and the spec's relation identity). -/
def relKey (r : Relation) : String × String × String :=
  (r.«from», r.«to», r.relationType)

/-- One item of the `addObservations` batch. -/
structure ObservationItem where
  entityName : String
  contents : List String
deriving DecidableEq

/-- One item of the `addObservations` result. -/
structure ObservationResult where
  entityName : String
  addedObservations : List String
deriving DecidableEq

/-- Body of one `addObservations` iteration on the found entity
(lines 112–113): filter the contents already present, push the rest. -/
def addToEntity (e : Entity) (contents : List String) : Entity × List String :=
  let newObservations := contents.filter fun content =>
    ! e.observations.contains content
  ({ e with observations := e.observations ++ newObservations }, newObservations)

/-- `graph.entities.find(e => e.name === o.entityName)` followed by the
in-place mutation: update the first entity with the given name, returning
the updated entity list and the observations actually added; `none` when
no entity has the name. -/
def updateFirst : List Entity → String → List String →
    Option (List Entity × List String)
  | [], _, _ => none
  | e :: rest, name, contents =>
    if e.name == name then
      let res := addToEntity e contents
      some (res.1 :: rest, res.2)
    else
      match updateFirst rest name contents with
      | none => none
      | some (rest', added) => some (e :: rest', added)

/-- The `observations.map(...)` loop of `addObservations` (lines 106–115):
process the items in order, threading the mutated entity list; a missing
entity name throws, abandoning the rest of the batch. -/
def applyObservations : List Entity → List ObservationItem →
    Except OpError (List Entity × List ObservationResult)
  | entities, [] => .ok (entities, [])
  | entities, o :: rest =>
    match updateFirst entities o.entityName o.contents with
    | none => .error (.notFound o.entityName)
    | some (entities', added) =>
      match applyObservations entities' rest with
      | .error err => .error err
      | .ok (entities'', results) =>
        .ok (entities'', { entityName := o.entityName,
                           addedObservations := added } :: results)

/-- `addObservations` (lines 103–119) including load and save: a thrown
`notFound` reaches the caller before `saveGraph` runs, so the store
component stays what it was. -/
def addObservationsOp (σ : StoreState) (observations : List ObservationItem) :
    StoreState × Except OpError (List ObservationResult) :=
  match loadGraph σ with
  | .error err => (σ, .error err)
  | .ok g =>
    match applyObservations g.entities observations with
    | .error err => (σ, .error err)
    | .ok (entities', results) =>
      (saveGraph { g with entities := entities' }, .ok results)

/-- `deleteEntities` (lines 121–128), in-memory part: drop entities whose
name is listed and every relation with a listed endpoint. -/
def deleteEntities (g : KnowledgeGraph) (entityNames : List String) :
    KnowledgeGraph :=
  { entities := g.entities.filter fun e => ! entityNames.contains e.name,
    relations := g.relations.filter fun r =>
      ! entityNames.contains r.«from» && ! entityNames.contains r.«to» }

/-- `deleteEntities` including load and save. -/
def deleteEntitiesOp (σ : StoreState) (entityNames : List String) :
    StoreState × Except OpError Unit :=
  match loadGraph σ with
  | .error err => (σ, .error err)
  | .ok g => (saveGraph (deleteEntities g entityNames), .ok ())

/-- `readGraph` (lines 157–162): load and return, no write. -/
def readGraphOp (σ : StoreState) : StoreState × Except OpError KnowledgeGraph :=
  match loadGraph σ with
  | .error err => (σ, .error err)
  | .ok g => (σ, .ok g)

/-- `s.toLowerCase()` at the character-list level. -/
def lowerData (s : String) : List Char :=
  s.data.map Char.toLower

/-- The entity filter of `searchNodes` (lines 170–174):
`e.name.toLowerCase().includes(query.toLowerCase()) || …` — the lowered
query is a contiguous substring of the lowered name, type, or some
observation. -/
def entityMatches (query : String) (e : Entity) : Bool :=
  decide (lowerData query <:+: lowerData e.name) ||
  decide (lowerData query <:+: lowerData e.entityType) ||
  e.observations.any fun o => decide (lowerData query <:+: lowerData o)

/-- `searchNodes` (lines 165–191), in-memory part: filter the entities by
the query, then keep only relations with both endpoints among the
filtered entity names. -/
def searchNodes (g : KnowledgeGraph) (query : String) : KnowledgeGraph :=
  let filteredEntities := g.entities.filter fun e => entityMatches query e
  let filteredEntityNames := filteredEntities.map Entity.name
  let filteredRelations := g.relations.filter fun r =>
    filteredEntityNames.contains r.«from» && filteredEntityNames.contains r.«to»
  { entities := filteredEntities, relations := filteredRelations }

/-- `searchNodes` including the load; no write. -/
def searchNodesOp (σ : StoreState) (query : String) :
    StoreState × Except OpError KnowledgeGraph :=
  match loadGraph σ with
  | .error err => (σ, .error err)
  | .ok g => (σ, .ok (searchNodes g query))

/-- `openNodes` (lines 193–215), in-memory part: keep entities whose name
is listed, then relations with both endpoints among the kept names. -/
def openNodes (g : KnowledgeGraph) (names : List String) : KnowledgeGraph :=
  let filteredEntities := g.entities.filter fun e => names.contains e.name
  let filteredEntityNames := filteredEntities.map Entity.name
  let filteredRelations := g.relations.filter fun r =>
    filteredEntityNames.contains r.«from» && filteredEntityNames.contains r.«to»
  { entities := filteredEntities, relations := filteredRelations }

/-- `openNodes` including the load; no write. -/
def openNodesOp (σ : StoreState) (names : List String) :
    StoreState × Except OpError KnowledgeGraph :=
  match loadGraph σ with
  | .error err => (σ, .error err)
  | .ok g => (σ, .ok (openNodes g names))


/-! ### Helper lemmas -/

theorem foldl_decodeStep_entities (es : List Entity) :
    ∀ acc : KnowledgeGraph,
      (es.map StoredRecord.entity).foldl decodeStep acc =
        { acc with entities := acc.entities ++ es } := by
  induction es with
  | nil => intro acc; simp
  | cons e es ih =>
    intro acc
    simp [decodeStep, ih]

theorem foldl_decodeStep_relations (rs : List Relation) :
    ∀ acc : KnowledgeGraph,
      (rs.map StoredRecord.relation).foldl decodeStep acc =
        { acc with relations := acc.relations ++ rs } := by
  induction rs with
  | nil => intro acc; simp
  | cons r rs ih =>
    intro acc
    simp [decodeStep, ih]

theorem decode_encode (g : KnowledgeGraph) : decodeRecords (encodeGraph g) = g := by
  simp [decodeRecords, encodeGraph, List.foldl_append,
    foldl_decodeStep_entities, foldl_decodeStep_relations]

theorem contains_iff {α : Type} [BEq α] [LawfulBEq α] (l : List α) (a : α) :
    l.contains a = true ↔ a ∈ l :=
  List.elem_iff


/-! ### C6, C8, C9 -/

/-- C6: decoding the records produced by encoding a graph yields the same
graph — the same entities field for field and the same relations, here
even in the same order within each collection. -/
theorem codec_roundtrip (g : KnowledgeGraph) : decodeRecords (encodeGraph g) = g :=
  decode_encode g

/-- C8: when the backing file does not exist, `loadGraph` and every read
operation built on it (`readGraph`, `searchNodes`, `openNodes`) return an
empty graph rather than an error, and leave the store absent; any read
failure other than file-not-found is propagated to the caller as an
error. -/
theorem reads_cold_start_and_errors (q : String) (ns : List String) :
    loadGraph .absent = .ok { entities := [], relations := [] } ∧
    readGraphOp .absent = (.absent, .ok { entities := [], relations := [] }) ∧
    searchNodesOp .absent q = (.absent, .ok { entities := [], relations := [] }) ∧
    openNodesOp .absent ns = (.absent, .ok { entities := [], relations := [] }) ∧
    loadGraph .failed = .error .ioError ∧
    readGraphOp .failed = (.failed, .error .ioError) ∧
    searchNodesOp .failed q = (.failed, .error .ioError) ∧
    openNodesOp .failed ns = (.failed, .error .ioError) :=
  ⟨rfl, rfl, rfl, rfl, rfl, rfl, rfl, rfl⟩

/-- C9: `readGraph`, `searchNodes` and `openNodes` never write the
backing store — for every store state and every argument the store
component after the call is exactly the store before it. -/
theorem reads_never_write (σ : StoreState) (q : String) (ns : List String) :
    (readGraphOp σ).1 = σ ∧ (searchNodesOp σ q).1 = σ ∧ (openNodesOp σ ns).1 = σ := by
  cases σ <;> exact ⟨rfl, rfl, rfl⟩

theorem contains_eq_false_iff {α : Type} [BEq α] [LawfulBEq α] (l : List α) (a : α) :
    l.contains a = false ↔ a ∉ l := by
  rw [← contains_iff l a]
  cases h : l.contains a <;> simp

theorem mem_deleteEntities_entities (g : KnowledgeGraph) (names : List String)
    (e : Entity) :
    e ∈ (deleteEntities g names).entities ↔ e ∈ g.entities ∧ e.name ∉ names := by
  simp [deleteEntities, List.mem_filter, contains_eq_false_iff]

theorem mem_deleteEntities_relations (g : KnowledgeGraph) (names : List String)
    (r : Relation) :
    r ∈ (deleteEntities g names).relations ↔
      r ∈ g.relations ∧ r.«from» ∉ names ∧ r.«to» ∉ names := by
  simp [deleteEntities, List.mem_filter, contains_eq_false_iff]

/-- C7: after `deleteEntities(names)` the stored graph has no entity with
a listed name and no relation with a listed endpoint (cascade), while the
entities and relations not touching a listed name all remain. -/
theorem deleteEntities_cascades (σ : StoreState) (g : KnowledgeGraph)
    (names : List String) (rs' : List StoredRecord)
    (hload : loadGraph σ = .ok g)
    (hsave : (deleteEntitiesOp σ names).1 = .present rs') :
    (∀ e ∈ (decodeRecords rs').entities, e.name ∉ names) ∧
    (∀ r ∈ (decodeRecords rs').relations, r.«from» ∉ names ∧ r.«to» ∉ names) ∧
    (∀ e ∈ g.entities, e.name ∉ names → e ∈ (decodeRecords rs').entities) ∧
    (∀ r ∈ g.relations, r.«from» ∉ names → r.«to» ∉ names →
      r ∈ (decodeRecords rs').relations) := by
  have hop : deleteEntitiesOp σ names = (saveGraph (deleteEntities g names), .ok ()) := by
    unfold deleteEntitiesOp
    rw [hload]
  rw [hop] at hsave
  have hrs : rs' = encodeGraph (deleteEntities g names) :=
    (StoreState.present.inj hsave).symm
  have hdec : decodeRecords rs' = deleteEntities g names := by
    rw [hrs, decode_encode]
  rw [hdec]
  refine ⟨fun e he => ((mem_deleteEntities_entities g names e).1 he).2,
    fun r hr => ((mem_deleteEntities_relations g names r).1 hr).2,
    fun e he hn => (mem_deleteEntities_entities g names e).2 ⟨he, hn⟩,
    fun r hr h1 h2 => (mem_deleteEntities_relations g names r).2 ⟨hr, h1, h2⟩⟩

theorem induced_mem (ents : List Entity) (rels : List Relation) (r : Relation)
    (h : r ∈ rels.filter fun r =>
      (ents.map Entity.name).contains r.«from» &&
      (ents.map Entity.name).contains r.«to») :
    (∃ e ∈ ents, e.name = r.«from») ∧ (∃ e ∈ ents, e.name = r.«to») := by
  have h2 := (List.mem_filter.1 h).2
  rw [Bool.and_eq_true, contains_iff, contains_iff] at h2
  exact ⟨List.mem_map.1 h2.1, List.mem_map.1 h2.2⟩

/-- C5: every relation returned by `searchNodes` or `openNodes` has both
its `from` and its `to` equal to the name of some entity of the same
result; no relation with exactly one matched endpoint is returned. -/
theorem queries_induced_subgraph (g : KnowledgeGraph) (q : String)
    (ns : List String) (r : Relation) :
    (r ∈ (searchNodes g q).relations →
      (∃ e ∈ (searchNodes g q).entities, e.name = r.«from») ∧
      (∃ e ∈ (searchNodes g q).entities, e.name = r.«to»)) ∧
    (r ∈ (openNodes g ns).relations →
      (∃ e ∈ (openNodes g ns).entities, e.name = r.«from») ∧
      (∃ e ∈ (openNodes g ns).entities, e.name = r.«to»)) :=
  ⟨fun h => induced_mem (g.entities.filter fun e => entityMatches q e) g.relations r h,
   fun h => induced_mem (g.entities.filter fun e => ns.contains e.name) g.relations r h⟩


theorem queries_induced_subgraph_witness :
    ((⟨"A","B","knows"⟩ : Relation) ∈ (searchNodes ⟨[⟨"A","T",[]⟩, ⟨"B","U",[]⟩], [⟨"A","B","knows"⟩]⟩ ("")).relations) ∧
    ((∃ e ∈ (searchNodes ⟨[⟨"A","T",[]⟩, ⟨"B","U",[]⟩], [⟨"A","B","knows"⟩]⟩ ("")).entities, e.name = (⟨"A","B","knows"⟩ : Relation).«from») ∧
     (∃ e ∈ (searchNodes ⟨[⟨"A","T",[]⟩, ⟨"B","U",[]⟩], [⟨"A","B","knows"⟩]⟩ ("")).entities, e.name = (⟨"A","B","knows"⟩ : Relation).«to»)) ∧
    ((⟨"A","B","knows"⟩ : Relation) ∈ (openNodes ⟨[⟨"A","T",[]⟩, ⟨"B","U",[]⟩], [⟨"A","B","knows"⟩]⟩ ["A","B"]).relations) ∧
    ((∃ e ∈ (openNodes ⟨[⟨"A","T",[]⟩, ⟨"B","U",[]⟩], [⟨"A","B","knows"⟩]⟩ ["A","B"]).entities, e.name = (⟨"A","B","knows"⟩ : Relation).«from») ∧
     (∃ e ∈ (openNodes ⟨[⟨"A","T",[]⟩, ⟨"B","U",[]⟩], [⟨"A","B","knows"⟩]⟩ ["A","B"]).entities, e.name = (⟨"A","B","knows"⟩ : Relation).«to»)) :=
  ⟨by decide,
   (queries_induced_subgraph ⟨[⟨"A","T",[]⟩, ⟨"B","U",[]⟩], [⟨"A","B","knows"⟩]⟩ ("") ["A","B"] ⟨"A","B","knows"⟩).1 (by decide),
   by decide,
   (queries_induced_subgraph ⟨[⟨"A","T",[]⟩, ⟨"B","U",[]⟩], [⟨"A","B","knows"⟩]⟩ ("") ["A","B"] ⟨"A","B","knows"⟩).2 (by decide)⟩

theorem deleteEntities_cascades_witness :
    (loadGraph (.present [.entity ⟨"A","T",[]⟩, .entity ⟨"B","U",[]⟩, .relation ⟨"A","B","r"⟩, .relation ⟨"B","B","s"⟩]) =
      .ok ⟨[⟨"A","T",[]⟩, ⟨"B","U",[]⟩], [⟨"A","B","r"⟩, ⟨"B","B","s"⟩]⟩) ∧
    ((deleteEntitiesOp (.present [.entity ⟨"A","T",[]⟩, .entity ⟨"B","U",[]⟩, .relation ⟨"A","B","r"⟩, .relation ⟨"B","B","s"⟩]) ["A"]).1 = .present [.entity ⟨"B","U",[]⟩, .relation ⟨"B","B","s"⟩]) ∧
    ((∀ e ∈ (decodeRecords [.entity ⟨"B","U",[]⟩, .relation ⟨"B","B","s"⟩]).entities, e.name ∉ ["A"]) ∧
     (∀ r ∈ (decodeRecords [.entity ⟨"B","U",[]⟩, .relation ⟨"B","B","s"⟩]).relations, r.«from» ∉ ["A"] ∧ r.«to» ∉ ["A"]) ∧
     (∀ e ∈ (⟨[⟨"A","T",[]⟩, ⟨"B","U",[]⟩], [⟨"A","B","r"⟩, ⟨"B","B","s"⟩]⟩ : KnowledgeGraph).entities,
        e.name ∉ ["A"] → e ∈ (decodeRecords [.entity ⟨"B","U",[]⟩, .relation ⟨"B","B","s"⟩]).entities) ∧
     (∀ r ∈ (⟨[⟨"A","T",[]⟩, ⟨"B","U",[]⟩], [⟨"A","B","r"⟩, ⟨"B","B","s"⟩]⟩ : KnowledgeGraph).relations,
        r.«from» ∉ ["A"] → r.«to» ∉ ["A"] → r ∈ (decodeRecords [.entity ⟨"B","U",[]⟩, .relation ⟨"B","B","s"⟩]).relations)) :=
  ⟨rfl, rfl,
   deleteEntities_cascades (.present [.entity ⟨"A","T",[]⟩, .entity ⟨"B","U",[]⟩, .relation ⟨"A","B","r"⟩, .relation ⟨"B","B","s"⟩])
     ⟨[⟨"A","T",[]⟩, ⟨"B","U",[]⟩], [⟨"A","B","r"⟩, ⟨"B","B","s"⟩]⟩ ["A"] [.entity ⟨"B","U",[]⟩, .relation ⟨"B","B","s"⟩] rfl rfl⟩



theorem addToEntity_name (e : Entity) (cs : List String) :
    (addToEntity e cs).1.name = e.name := rfl

theorem addToEntity_nodup (e : Entity) (cs : List String)
    (h1 : e.observations.Nodup) (h2 : cs.Nodup) :
    (addToEntity e cs).1.observations.Nodup := by
  refine List.Nodup.append h1 (h2.sublist (List.filter_sublist cs)) ?_
  intro a ha hb
  have h3 := (List.mem_filter.1 hb).2
  rw [Bool.not_eq_true', contains_eq_false_iff] at h3
  exact h3 ha

theorem updateFirst_some_names (n : String) (cs : List String) :
    ∀ (ents ents' : List Entity) (add : List String),
      updateFirst ents n cs = some (ents', add) →
      ents'.map Entity.name = ents.map Entity.name := by
  intro ents
  induction ents with
  | nil => intro ents' add h; simp [updateFirst] at h
  | cons e rest ih =>
    intro ents' add h
    by_cases hbeq : (e.name == n) = true
    · rw [updateFirst, if_pos hbeq] at h
      cases h
      simp [addToEntity_name]
    · rw [updateFirst, if_neg hbeq] at h
      cases hrec : updateFirst rest n cs with
      | none => exact Option.noConfusion (hrec ▸ h)
      | some pair =>
        obtain ⟨rest', added⟩ := pair
        simp only [hrec] at h
        cases h
        simp [ih rest' add hrec]

theorem updateFirst_some_mem (n : String) (cs : List String) :
    ∀ (ents : List Entity) (x : List Entity × List String),
      updateFirst ents n cs = some x → n ∈ ents.map Entity.name := by
  intro ents
  induction ents with
  | nil => intro x h; simp [updateFirst] at h
  | cons e rest ih =>
    intro x h
    by_cases hbeq : (e.name == n) = true
    · rw [beq_iff_eq] at hbeq
      simp [← hbeq]
    · rw [updateFirst, if_neg hbeq] at h
      cases hrec : updateFirst rest n cs with
      | none => exact Option.noConfusion (hrec ▸ h)
      | some pair =>
        simp only [hrec] at h
        simp [ih pair hrec]

theorem updateFirst_some_nodup (n : String) (cs : List String) (hcs : cs.Nodup) :
    ∀ (ents ents' : List Entity) (add : List String),
      (∀ e ∈ ents, e.observations.Nodup) →
      updateFirst ents n cs = some (ents', add) →
      ∀ e ∈ ents', e.observations.Nodup := by
  intro ents
  induction ents with
  | nil => intro ents' add _ h; simp [updateFirst] at h
  | cons e rest ih =>
    intro ents' add hents h
    by_cases hbeq : (e.name == n) = true
    · rw [updateFirst, if_pos hbeq] at h
      cases h
      intro x hx
      rcases List.mem_cons.1 hx with rfl | hx'
      · exact addToEntity_nodup e cs (hents e (List.mem_cons_self e rest)) hcs
      · exact hents x (List.mem_cons_of_mem e hx')
    · rw [updateFirst, if_neg hbeq] at h
      cases hrec : updateFirst rest n cs with
      | none => exact Option.noConfusion (hrec ▸ h)
      | some pair =>
        obtain ⟨rest', added⟩ := pair
        simp only [hrec] at h
        cases h
        intro x hx
        rcases List.mem_cons.1 hx with rfl | hx'
        · exact hents x (List.mem_cons_self x rest)
        · exact ih rest' add (fun y hy => hents y (List.mem_cons_of_mem e hy)) hrec x hx'

theorem applyObservations_missing (o : ObservationItem) :
    ∀ (items : List ObservationItem) (ents : List Entity),
      o ∈ items → o.entityName ∉ ents.map Entity.name →
      ∃ n, applyObservations ents items = .error (.notFound n) := by
  intro items
  induction items with
  | nil => intro ents h _; exact absurd h (List.not_mem_nil o)
  | cons i rest ih =>
    intro ents ho hmiss
    cases hup : updateFirst ents i.entityName i.contents with
    | none =>
      refine ⟨i.entityName, ?_⟩
      rw [applyObservations]
      simp only [hup]
    | some pair =>
      obtain ⟨ents', add⟩ := pair
      rcases List.mem_cons.1 ho with rfl | ho'
      · exact absurd (updateFirst_some_mem o.entityName o.contents ents _ hup) hmiss
      · have hnames := updateFirst_some_names i.entityName i.contents ents ents' add hup
        obtain ⟨n, hn⟩ := ih ents' ho' (by rw [hnames]; exact hmiss)
        refine ⟨n, ?_⟩
        rw [applyObservations]
        simp only [hup, hn]

theorem applyObservations_ok_nodup :
    ∀ (items : List ObservationItem) (ents ents' : List Entity)
      (res : List ObservationResult),
      applyObservations ents items = .ok (ents', res) →
      (∀ e ∈ ents, e.observations.Nodup) →
      (∀ o ∈ items, o.contents.Nodup) →
      ∀ e ∈ ents', e.observations.Nodup := by
  intro items
  induction items with
  | nil =>
    intro ents ents' res h hents _
    rw [applyObservations] at h
    cases h
    exact hents
  | cons i rest ih =>
    intro ents ents' res h hents hitems
    rw [applyObservations] at h
    cases hup : updateFirst ents i.entityName i.contents with
    | none => simp only [hup] at h; exact Except.noConfusion h
    | some pair =>
      obtain ⟨ents1, add⟩ := pair
      cases happ : applyObservations ents1 rest with
      | error err => simp only [hup, happ] at h; exact Except.noConfusion h
      | ok out =>
        obtain ⟨ents2, res2⟩ := out
        simp only [hup, happ] at h
        have hents2 : ents2 = ents' := congrArg Prod.fst (Except.ok.inj h)
        subst hents2
        exact ih ents1 ents2 res2 happ
          (updateFirst_some_nodup i.entityName i.contents
            (hitems i (List.mem_cons_self i rest)) ents ents1 add hents hup)
          (fun o hor => hitems o (List.mem_cons_of_mem i hor))

/-- C2: if some item of an `addObservations` batch names an entity absent
from the loaded graph, the call fails with the not-found error and the
persisted store is unchanged — the save step never runs, so no
observation appended in memory to an earlier entity of the batch reaches
persisted state. -/
theorem addObservations_missing_atomic (σ : StoreState) (g : KnowledgeGraph)
    (items : List ObservationItem) (o : ObservationItem)
    (hload : loadGraph σ = .ok g) (ho : o ∈ items)
    (hmiss : o.entityName ∉ g.entities.map Entity.name) :
    (addObservationsOp σ items).1 = σ ∧
    ∃ n, (addObservationsOp σ items).2 = .error (.notFound n) := by
  obtain ⟨n, hn⟩ := applyObservations_missing o items g.entities ho hmiss
  unfold addObservationsOp
  simp only [hload, hn]
  refine ⟨by simp, n, by simp⟩

theorem addObservations_missing_atomic_witness :
    (loadGraph (.present [.entity ⟨"A","T",[]⟩]) =
      .ok ⟨[⟨"A","T",[]⟩], []⟩) ∧
    ((⟨"B",["y"]⟩ : ObservationItem) ∈
      [(⟨"A",["x"]⟩ : ObservationItem), ⟨"B",["y"]⟩]) ∧
    ((⟨"B",["y"]⟩ : ObservationItem).entityName ∉
      (⟨[⟨"A","T",[]⟩], []⟩ : KnowledgeGraph).entities.map Entity.name) ∧
    ((addObservationsOp (.present [.entity ⟨"A","T",[]⟩])
        [⟨"A",["x"]⟩, ⟨"B",["y"]⟩]).1 = .present [.entity ⟨"A","T",[]⟩] ∧
      ∃ n, (addObservationsOp (.present [.entity ⟨"A","T",[]⟩])
        [⟨"A",["x"]⟩, ⟨"B",["y"]⟩]).2 = .error (.notFound n)) :=
  ⟨rfl, by decide, by decide,
   (addObservations_missing_atomic (.present [.entity ⟨"A","T",[]⟩])
     ⟨[⟨"A","T",[]⟩], []⟩ [⟨"A",["x"]⟩, ⟨"B",["y"]⟩] ⟨"B",["y"]⟩
     rfl (by decide) (by decide))⟩


/-- C3 (amended): for every batch accepted by `addObservations`, if every
loaded entity's observation list is duplicate-free and every item's
`contents` list is itself duplicate-free, then afterwards no stored
entity's observation list contains a duplicate string. -/
theorem addObservations_preserves_obs_nodup (σ : StoreState) (g : KnowledgeGraph)
    (items : List ObservationItem) (rs' : List StoredRecord)
    (res : List ObservationResult)
    (hload : loadGraph σ = .ok g)
    (hg : ∀ e ∈ g.entities, e.observations.Nodup)
    (hitems : ∀ o ∈ items, o.contents.Nodup)
    (hok : addObservationsOp σ items = (.present rs', .ok res)) :
    ∀ e ∈ (decodeRecords rs').entities, e.observations.Nodup := by
  unfold addObservationsOp at hok
  simp only [hload] at hok
  cases happ : applyObservations g.entities items with
  | error err =>
    simp only [happ] at hok
    exact Except.noConfusion (congrArg Prod.snd hok)
  | ok out =>
    obtain ⟨ents', results⟩ := out
    simp only [happ] at hok
    have h1 : StoreState.present (encodeGraph { g with entities := ents' }) =
        .present rs' := congrArg Prod.fst hok
    have hrs : rs' = encodeGraph { g with entities := ents' } :=
      (StoreState.present.inj h1).symm
    rw [hrs, decode_encode]
    exact applyObservations_ok_nodup items g.entities ents' results happ hg hitems

theorem addObservations_obs_nodup_cex :
    (loadGraph (.present [.entity ⟨"A","T",[]⟩]) = .ok ⟨[⟨"A","T",[]⟩], []⟩) ∧
    ((⟨"A","T",[]⟩ : Entity).observations.Nodup) ∧
    (addObservationsOp (.present [.entity ⟨"A","T",[]⟩]) [⟨"A",["x","x"]⟩] =
      (.present [.entity ⟨"A","T",["x","x"]⟩], .ok [⟨"A",["x","x"]⟩])) ∧
    (⟨"A","T",["x","x"]⟩ : Entity) ∈
      (decodeRecords [.entity ⟨"A","T",["x","x"]⟩]).entities ∧
    ¬ (⟨"A","T",["x","x"]⟩ : Entity).observations.Nodup :=
  ⟨rfl, by decide, rfl, by decide, by decide⟩

theorem addObservations_preserves_obs_nodup_witness :
    (loadGraph (.present [.entity ⟨"A","T",["x"]⟩]) = .ok ⟨[⟨"A","T",["x"]⟩], []⟩) ∧
    (∀ e ∈ (⟨[⟨"A","T",["x"]⟩], []⟩ : KnowledgeGraph).entities,
      e.observations.Nodup) ∧
    (∀ o ∈ [(⟨"A",["x","y"]⟩ : ObservationItem)], o.contents.Nodup) ∧
    (addObservationsOp (.present [.entity ⟨"A","T",["x"]⟩]) [⟨"A",["x","y"]⟩] =
      (.present [.entity ⟨"A","T",["x","y"]⟩], .ok [⟨"A",["y"]⟩])) ∧
    (∀ e ∈ (decodeRecords [.entity ⟨"A","T",["x","y"]⟩]).entities,
      e.observations.Nodup) :=
  ⟨rfl, by decide, by decide, rfl,
   addObservations_preserves_obs_nodup (.present [.entity ⟨"A","T",["x"]⟩])
     ⟨[⟨"A","T",["x"]⟩], []⟩ [⟨"A",["x","y"]⟩] [.entity ⟨"A","T",["x","y"]⟩]
     [⟨"A",["y"]⟩] rfl (by decide) (by decide) rfl⟩

theorem createEntities_nodup_lemma (g : KnowledgeGraph) (es : List Entity)
    (hg : (g.entities.map Entity.name).Nodup) (hes : (es.map Entity.name).Nodup) :
    ((createEntities g es).1.entities.map Entity.name).Nodup := by
  simp only [createEntities, List.map_append]
  refine List.Nodup.append hg
    (hes.sublist (List.Sublist.map Entity.name (List.filter_sublist es))) ?_
  intro a ha hb
  obtain ⟨e, hef, rfl⟩ := List.mem_map.1 hb
  have hp := (List.mem_filter.1 hef).2
  rw [Bool.not_eq_true', List.any_eq_false] at hp
  obtain ⟨ex, hex, hname⟩ := List.mem_map.1 ha
  exact hp ex hex (by rw [beq_iff_eq]; exact hname)

/-- C1 (amended): if the loaded graph's entity names are pairwise
distinct and the batch's candidate names are themselves pairwise
distinct, then after `createEntities` the stored graph's entity names are
still pairwise distinct. -/
theorem createEntities_preserves_name_nodup (σ : StoreState) (g : KnowledgeGraph)
    (es : List Entity) (rs' : List StoredRecord)
    (hload : loadGraph σ = .ok g)
    (hg : (g.entities.map Entity.name).Nodup)
    (hes : (es.map Entity.name).Nodup)
    (hsave : (createEntitiesOp σ es).1 = .present rs') :
    ((decodeRecords rs').entities.map Entity.name).Nodup := by
  have hop : (createEntitiesOp σ es).1 = saveGraph (createEntities g es).1 := by
    unfold createEntitiesOp
    rw [hload]
  rw [hop] at hsave
  have hrs : rs' = encodeGraph (createEntities g es).1 :=
    (StoreState.present.inj hsave).symm
  rw [hrs, decode_encode]
  exact createEntities_nodup_lemma g es hg hes

theorem createEntities_name_nodup_cex :
    (loadGraph .absent = .ok ⟨[], []⟩) ∧
    ((([] : List Entity).map Entity.name).Nodup) ∧
    ((createEntitiesOp .absent [⟨"A","T",[]⟩, ⟨"A","U",[]⟩]).1 =
      .present [.entity ⟨"A","T",[]⟩, .entity ⟨"A","U",[]⟩]) ∧
    ¬ ((decodeRecords [.entity ⟨"A","T",[]⟩,
        .entity ⟨"A","U",[]⟩]).entities.map Entity.name).Nodup :=
  ⟨rfl, by decide, rfl, by decide⟩

theorem createEntities_preserves_name_nodup_witness :
    (loadGraph (.present [.entity ⟨"A","T",[]⟩]) = .ok ⟨[⟨"A","T",[]⟩], []⟩) ∧
    (((⟨[⟨"A","T",[]⟩], []⟩ : KnowledgeGraph).entities.map Entity.name).Nodup) ∧
    ((([⟨"A","U",[]⟩, ⟨"B","V",[]⟩] : List Entity).map Entity.name).Nodup) ∧
    ((createEntitiesOp (.present [.entity ⟨"A","T",[]⟩])
        [⟨"A","U",[]⟩, ⟨"B","V",[]⟩]).1 =
      .present [.entity ⟨"A","T",[]⟩, .entity ⟨"B","V",[]⟩]) ∧
    ((decodeRecords [.entity ⟨"A","T",[]⟩,
        .entity ⟨"B","V",[]⟩]).entities.map Entity.name).Nodup :=
  ⟨rfl, by decide, by decide, rfl,
   createEntities_preserves_name_nodup (.present [.entity ⟨"A","T",[]⟩])
     ⟨[⟨"A","T",[]⟩], []⟩ [⟨"A","U",[]⟩, ⟨"B","V",[]⟩]
     [.entity ⟨"A","T",[]⟩, .entity ⟨"B","V",[]⟩] rfl (by decide) (by decide) rfl⟩

theorem createRelations_nodup_lemma (g : KnowledgeGraph) (rels : List Relation)
    (hg : (g.relations.map relKey).Nodup) (hrels : (rels.map relKey).Nodup) :
    ((createRelations g rels).1.relations.map relKey).Nodup := by
  simp only [createRelations, List.map_append]
  refine List.Nodup.append hg
    (hrels.sublist (List.Sublist.map relKey (List.filter_sublist rels))) ?_
  intro a ha hb
  obtain ⟨r, hrf, rfl⟩ := List.mem_map.1 hb
  have hp := (List.mem_filter.1 hrf).2
  rw [Bool.not_eq_true', List.any_eq_false] at hp
  obtain ⟨ex, hex, hkey⟩ := List.mem_map.1 ha
  refine hp ex hex ?_
  simp only [relKey, Prod.mk.injEq] at hkey
  simp [hkey.1, hkey.2.1, hkey.2.2]

/-- C4 (amended): if the loaded graph's relation triples are pairwise
distinct and the batch's candidate triples are themselves pairwise
distinct, then after `createRelations` the stored graph's relation
triples are still pairwise distinct. -/
theorem createRelations_preserves_triple_nodup (σ : StoreState)
    (g : KnowledgeGraph) (rels : List Relation) (rs' : List StoredRecord)
    (hload : loadGraph σ = .ok g)
    (hg : (g.relations.map relKey).Nodup)
    (hrels : (rels.map relKey).Nodup)
    (hsave : (createRelationsOp σ rels).1 = .present rs') :
    ((decodeRecords rs').relations.map relKey).Nodup := by
  have hop : (createRelationsOp σ rels).1 = saveGraph (createRelations g rels).1 := by
    unfold createRelationsOp
    rw [hload]
  rw [hop] at hsave
  have hrs : rs' = encodeGraph (createRelations g rels).1 :=
    (StoreState.present.inj hsave).symm
  rw [hrs, decode_encode]
  exact createRelations_nodup_lemma g rels hg hrels

theorem createRelations_triple_nodup_cex :
    (loadGraph .absent = .ok ⟨[], []⟩) ∧
    ((([] : List Relation).map relKey).Nodup) ∧
    ((createRelationsOp .absent [⟨"A","B","r"⟩, ⟨"A","B","r"⟩]).1 =
      .present [.relation ⟨"A","B","r"⟩, .relation ⟨"A","B","r"⟩]) ∧
    ¬ ((decodeRecords [.relation ⟨"A","B","r"⟩,
        .relation ⟨"A","B","r"⟩]).relations.map relKey).Nodup :=
  ⟨rfl, by decide, rfl, by decide⟩

theorem createRelations_preserves_triple_nodup_witness :
    (loadGraph (.present [.relation ⟨"A","B","r"⟩]) = .ok ⟨[], [⟨"A","B","r"⟩]⟩) ∧
    (((⟨[], [⟨"A","B","r"⟩]⟩ : KnowledgeGraph).relations.map relKey).Nodup) ∧
    ((([⟨"A","B","r"⟩, ⟨"A","C","s"⟩] : List Relation).map relKey).Nodup) ∧
    ((createRelationsOp (.present [.relation ⟨"A","B","r"⟩])
        [⟨"A","B","r"⟩, ⟨"A","C","s"⟩]).1 =
      .present [.relation ⟨"A","B","r"⟩, .relation ⟨"A","C","s"⟩]) ∧
    ((decodeRecords [.relation ⟨"A","B","r"⟩,
        .relation ⟨"A","C","s"⟩]).relations.map relKey).Nodup :=
  ⟨rfl, by decide, by decide, rfl,
   createRelations_preserves_triple_nodup (.present [.relation ⟨"A","B","r"⟩])
     ⟨[], [⟨"A","B","r"⟩]⟩ [⟨"A","B","r"⟩, ⟨"A","C","s"⟩]
     [.relation ⟨"A","B","r"⟩, .relation ⟨"A","C","s"⟩] rfl (by decide) (by decide) rfl⟩


/-- C10: with the empty query every entity matches `searchNodes` (the
empty string is a substring of every string), yet only relations with
both endpoints among the returned entity names are kept; hence a
dangling relation (an endpoint naming no stored entity) is omitted by
`searchNodes("")` while `readGraph` on the same store returns it. -/
theorem searchNodes_empty_query_vs_readGraph (g : KnowledgeGraph) (r : Relation) :
    (searchNodes g ("")).entities = g.entities ∧
    (readGraphOp (saveGraph g)).2 = .ok g ∧
    (r ∈ g.relations →
      (r.«from» ∉ g.entities.map Entity.name ∨
        r.«to» ∉ g.entities.map Entity.name) →
      r ∉ (searchNodes g ("")).relations) := by
  have h0 : lowerData ("") = [] := rfl
  have hmatch : ∀ e : Entity, entityMatches ("") e = true := by
    intro e
    simp [entityMatches, h0]
  have hfe : (g.entities.filter fun e => entityMatches ("") e) = g.entities :=
    List.filter_eq_self.mpr fun a _ => hmatch a
  refine ⟨hfe, ?_, ?_⟩
  · simp only [readGraphOp, saveGraph, loadGraph]
    rw [decode_encode]
  · intro _ hnot hmem
    have hmem' : r ∈ g.relations.filter fun r =>
        ((g.entities.filter fun e => entityMatches ("") e).map Entity.name).contains r.«from» &&
        ((g.entities.filter fun e => entityMatches ("") e).map Entity.name).contains r.«to» := hmem
    have h2 := (List.mem_filter.1 hmem').2
    rw [Bool.and_eq_true, contains_iff, contains_iff, hfe] at h2
    rcases hnot with h | h
    · exact h h2.1
    · exact h h2.2

theorem searchNodes_empty_query_vs_readGraph_witness :
    ((searchNodes ⟨[⟨"A","T",[]⟩], [⟨"A","B","r"⟩]⟩ ("")).entities =
      (⟨[⟨"A","T",[]⟩], [⟨"A","B","r"⟩]⟩ : KnowledgeGraph).entities) ∧
    ((readGraphOp (saveGraph ⟨[⟨"A","T",[]⟩], [⟨"A","B","r"⟩]⟩)).2 = .ok ⟨[⟨"A","T",[]⟩], [⟨"A","B","r"⟩]⟩) ∧
    ((⟨"A","B","r"⟩ : Relation) ∈ (⟨[⟨"A","T",[]⟩], [⟨"A","B","r"⟩]⟩ : KnowledgeGraph).relations) ∧
    ((⟨"A","B","r"⟩ : Relation).«from» ∉
        (⟨[⟨"A","T",[]⟩], [⟨"A","B","r"⟩]⟩ : KnowledgeGraph).entities.map Entity.name ∨
      (⟨"A","B","r"⟩ : Relation).«to» ∉
        (⟨[⟨"A","T",[]⟩], [⟨"A","B","r"⟩]⟩ : KnowledgeGraph).entities.map Entity.name) ∧
    ((⟨"A","B","r"⟩ : Relation) ∉ (searchNodes ⟨[⟨"A","T",[]⟩], [⟨"A","B","r"⟩]⟩ ("")).relations) :=
  ⟨(searchNodes_empty_query_vs_readGraph ⟨[⟨"A","T",[]⟩], [⟨"A","B","r"⟩]⟩ ⟨"A","B","r"⟩).1,
   (searchNodes_empty_query_vs_readGraph ⟨[⟨"A","T",[]⟩], [⟨"A","B","r"⟩]⟩ ⟨"A","B","r"⟩).2.1,
   by decide, by decide,
   (searchNodes_empty_query_vs_readGraph ⟨[⟨"A","T",[]⟩], [⟨"A","B","r"⟩]⟩ ⟨"A","B","r"⟩).2.2
     (by decide) (by decide)⟩


end Memory
